import Mathlib

/-!
Verification of the bank-statement text parser of LiquidSuite
(`lsuite/gmail/parsers.py`, class PDFParser).

The source file interleaves one coherent implementation with pasted
duplicate blocks; the regex literals of `_parse_tymebank` are split
across those blocks at their `$` anchors and are reassembled here.  The
operative (last-defined) versions of `_parse_capitec`, `_parse_generic`
and `parse_html_email` are the `re.findall`-based ones; those are the
versions embedded below.

Conventions of the embedding:
* Python strings are Lean `String`s, lines are obtained by splitting on
  the newline character exactly as `text.split` does.
* Python `float` amounts are embedded as exact canonical decimals
  (`Dec`).  Every amount these parsers build is a short decimal far below
  the precision bound of binary floats, so the observable comparisons
  (`== 0`, `> 0`, `< 0`, `abs`, equality) coincide.
* `datetime.now().year` (used by the Capitec parser) is passed as an
  explicit `year : Nat` argument, the only ambient input of the module.
* The fixed regular expressions of the source are implemented as
  dedicated matchers with Python's leftmost greedy/lazy semantics.
-/

/-- Python whitespace class for ASCII text: the characters matched by the
regex class backslash-s and stripped by str.strip(). -/
def pySpace (c : Char) : Bool :=
  c = ' ' || c = '\t' || c = '\n' || c = '\x0d' || c = '\x0b' || c = '\x0c'

/-- Python regex digit class (ASCII). -/
def pyDigitB (c : Char) : Bool := '0' ≤ c && c ≤ '9'

/-- Python regex word class (ASCII): letters, digits and underscore. -/
def pyWordB (c : Char) : Bool :=
  ('a' ≤ c && c ≤ 'z') || ('A' ≤ c && c ≤ 'Z') || pyDigitB c || c = '_'

/-- Embedding of Python str.strip(): remove whitespace from both ends. -/
def pyStrip (s : String) : String :=
  ⟨((s.data.dropWhile pySpace).reverse.dropWhile pySpace).reverse⟩

/-- Embedding of Python str.split() with no argument: split on runs of
whitespace, discarding empty pieces.  The accumulator holds the current
token reversed. -/
def pySplitWsAux : List Char → List Char → List (List Char)
  | [], acc => if acc.isEmpty then [] else [acc.reverse]
  | c :: rest, acc =>
    if pySpace c then
      if acc.isEmpty then pySplitWsAux rest []
      else acc.reverse :: pySplitWsAux rest []
    else pySplitWsAux rest (c :: acc)

/-- Split a string on whitespace runs, as Python str.split(). -/
def pySplitWs (s : String) : List String :=
  (pySplitWsAux s.data []).map (fun l => ⟨l⟩)

/-- Split on a single separator character, keeping empty pieces, the
behaviour of Python str.split(sep) used with a newline and of the
format separators of strptime. -/
def splitOnCharAux (sep : Char) : List Char → List Char → List (List Char)
  | [], acc => [acc.reverse]
  | c :: rest, acc =>
    if c = sep then acc.reverse :: splitOnCharAux sep rest []
    else splitOnCharAux sep rest (c :: acc)

/-- Split a string on one separator character. -/
def splitOnChar (sep : Char) (s : String) : List String :=
  (splitOnCharAux sep s.data []).map (fun l => ⟨l⟩)

/-- Prefix test on strings. -/
def strStartsWith (s p : String) : Bool := p.data.isPrefixOf s.data

/-- Embedding of the Python substring test `needle in hay`. -/
def strContainsAux (needle : List Char) (hay : List Char) : Bool :=
  needle.isPrefixOf hay ||
    match hay with
    | [] => false
    | _ :: t => strContainsAux needle t

/-- Substring containment on strings. -/
def strContains (hay needle : String) : Bool := strContainsAux needle.data hay.data

/-- Remove every occurrence of a character, as Python str.replace(c, ''). -/
def removeChar (c : Char) (s : String) : String :=
  ⟨s.data.filter (fun d => d ≠ c)⟩

/-- Decimal digit character of a value below ten. -/
def digitChar (d : Nat) : Char := Char.ofNat (48 + d)

/-- Decimal digit list of a natural number, most significant first, with
a structural fuel bound (the value itself always suffices, since the
quotient by ten strictly decreases). -/
def natCharsF : Nat → Nat → List Char
  | 0, _ => []
  | fuel + 1, n =>
    if n < 10 then [digitChar n]
    else natCharsF fuel (n / 10) ++ [digitChar (n % 10)]

/-- Decimal digit list of a natural number: the embedding of Python
str(int) used by the f-string references. -/
def natChars (n : Nat) : List Char := natCharsF (n + 1) n

/-- Decimal representation of a natural number. -/
def natStr (n : Nat) : String := ⟨natChars n⟩

/-- Value of a list of decimal digit characters. -/
def valOfDigits (cs : List Char) : Nat :=
  cs.foldl (fun a c => 10 * a + (c.toNat - 48)) 0

/-- Calendar date as produced by Python datetime.date. -/
structure PDate where
  year : Nat
  month : Nat
  day : Nat
deriving DecidableEq, Repr

/-- Transaction direction: the 'type' field of the emitted dictionaries. -/
inductive TxType
  | debit
  | credit
deriving DecidableEq, Repr

/-- Exact decimal number `num` times ten to the minus `exp`, the
embedding of the Python float amounts (every amount these parsers build
is a short decimal, far below the precision bound of binary floats, so
float arithmetic on them is exact).  Values are kept canonical — no
trailing zero digit in the fraction — so that structural equality
coincides with numeric equality. -/
structure Dec where
  num : Int
  exp : Nat
deriving DecidableEq, Repr

/-- Strip trailing zero fraction digits, structurally on the exponent. -/
def decCanonAux : Nat → Int → Dec
  | 0, n => ⟨n, 0⟩
  | e + 1, n => if n % 10 = 0 then decCanonAux e (n / 10) else ⟨n, e + 1⟩

/-- Canonical decimal of a scaled integer. -/
def decCanon (n : Int) (e : Nat) : Dec := decCanonAux e n

/-- Absolute value of a decimal, the embedding of Python abs() on the
parsed amounts. -/
def Dec.dabs (d : Dec) : Dec := ⟨|d.num|, d.exp⟩

/-- A transaction dictionary as appended by the parsers. -/
structure Transaction where
  date : PDate
  description : String
  amount : Dec
  type : TxType
  reference : String
deriving DecidableEq, Repr

/-- Gregorian leap-year test, as datetime uses. -/
def isLeap (y : Nat) : Bool := (y % 4 = 0 && y % 100 ≠ 0) || y % 400 = 0

/-- Number of days of a month, as validated by the datetime constructor. -/
def daysInMonth (y m : Nat) : Nat :=
  if m = 2 then (if isLeap y then 29 else 28)
  else if m = 4 || m = 6 || m = 9 || m = 11 then 30
  else 31

/-- Construction of a date with the validation datetime.date performs:
year in MINYEAR..MAXYEAR, month 1..12, day 1..days of the month. -/
def mkDate (y m d : Nat) : Option PDate :=
  if 1 ≤ y ∧ y ≤ 9999 ∧ 1 ≤ m ∧ m ≤ 12 ∧ 1 ≤ d ∧ d ≤ daysInMonth y m then
    some ⟨y, m, d⟩
  else none

/-- Month number of a three-letter abbreviation; strptime %b matching is
case-insensitive. -/
def monthOfAbbrev (s : String) : Option Nat :=
  let t : String := ⟨s.data.map Char.toLower⟩
  if t = "jan" then some 1 else if t = "feb" then some 2
  else if t = "mar" then some 3 else if t = "apr" then some 4
  else if t = "may" then some 5 else if t = "jun" then some 6
  else if t = "jul" then some 7 else if t = "aug" then some 8
  else if t = "sep" then some 9 else if t = "oct" then some 10
  else if t = "nov" then some 11 else if t = "dec" then some 12
  else none

/-- All characters of a string are decimal digits. -/
def allDigits (cs : List Char) : Bool := cs.all pyDigitB

/-- Embedding of datetime.strptime(s, '%d %b %Y').date(): day of one or
two digits, month abbreviation, four-digit year, separated by whitespace
runs; the date is validated as datetime does. -/
def parseDbY (s : String) : Option PDate :=
  match pySplitWs s with
  | [d, m, y] =>
    if (d.length = 1 || d.length = 2) && allDigits d.data
        && y.length = 4 && allDigits y.data then
      match monthOfAbbrev m with
      | some mo =>
        let dv := valOfDigits d.data
        if 1 ≤ dv ∧ dv ≤ 31 then mkDate (valOfDigits y.data) mo dv else none
      | none => none
    else none
  | _ => none

/-- Embedding of strptime(s, '%d/%m/%Y').date(). -/
def parseDMYslash (s : String) : Option PDate :=
  match splitOnChar '/' s with
  | [d, m, y] =>
    if (d.length = 1 || d.length = 2) && allDigits d.data
        && (m.length = 1 || m.length = 2) && allDigits m.data
        && y.length = 4 && allDigits y.data then
      mkDate (valOfDigits y.data) (valOfDigits m.data) (valOfDigits d.data)
    else none
  | _ => none

/-- Embedding of strptime(s, '%Y/%m/%d').date(). -/
def parseYMDslash (s : String) : Option PDate :=
  match splitOnChar '/' s with
  | [y, m, d] =>
    if y.length = 4 && allDigits y.data
        && (m.length = 1 || m.length = 2) && allDigits m.data
        && (d.length = 1 || d.length = 2) && allDigits d.data then
      mkDate (valOfDigits y.data) (valOfDigits m.data) (valOfDigits d.data)
    else none
  | _ => none

/-- Embedding of strptime(s, '%Y-%m-%d').date(). -/
def parseYMDdash (s : String) : Option PDate :=
  match splitOnChar '-' s with
  | [y, m, d] =>
    if y.length = 4 && allDigits y.data
        && (m.length = 1 || m.length = 2) && allDigits m.data
        && (d.length = 1 || d.length = 2) && allDigits d.data then
      mkDate (valOfDigits y.data) (valOfDigits m.data) (valOfDigits d.data)
    else none
  | _ => none

/-- Embedding of Python float() on the plain decimal strings these parsers
feed it: optional sign, integer digits, optional point and fraction
digits, nothing else; the value is returned as an exact canonical
decimal. -/
def pyFloat (s : String) : Option Dec :=
  let p : Int × List Char :=
    match s.data with
    | '-' :: t => (-1, t)
    | '+' :: t => (1, t)
    | cs => (1, cs)
  let ipart := p.2.takeWhile pyDigitB
  let r := p.2.drop ipart.length
  match r with
  | [] =>
    if ipart.isEmpty then none
    else some (decCanon (p.1 * (valOfDigits ipart : Int)) 0)
  | '.' :: fr =>
    let fpart := fr.takeWhile pyDigitB
    if fr.drop fpart.length ≠ [] then none
    else if ipart.isEmpty && fpart.isEmpty then none
    else
      some (decCanon
        (p.1 * ((valOfDigits ipart : Int) * 10 ^ fpart.length + (valOfDigits fpart : Int)))
        fpart.length)
  | _ => none

/-- Zero-padded two-digit field of strftime. -/
def pad2 (n : Nat) : String := if n < 10 then "0" ++ natStr n else natStr n

/-- Embedding of trans_date.strftime('%Y%m%d'). -/
def fmtYMD (d : PDate) : String := natStr d.year ++ pad2 d.month ++ pad2 d.day

/-- Matcher for the TymeBank date-line regex
`(backslash-d 1-2, ws+, word 3, ws+, digit 4) ws+ (rest)` — the pattern
applied by `re.match` to each stripped line of `_parse_tymebank`.
Returns the date group and the rest-of-line group.  The pattern is
deterministic: each greedy piece is a maximal run whose required
successor class is disjoint, so no backtracking can succeed where the
maximal-run reading fails. -/
def tymeDateMatch (s : String) : Option (String × String) :=
  let cs := s.data
  let d1 := cs.takeWhile pyDigitB
  if d1.length = 0 || d1.length > 2 then none else
  let r1 := cs.drop d1.length
  let w1 := r1.takeWhile pySpace
  if w1.length = 0 then none else
  let r2 := r1.drop w1.length
  let mo := r2.takeWhile pyWordB
  if mo.length ≠ 3 then none else
  let r3 := r2.drop 3
  let w2 := r3.takeWhile pySpace
  if w2.length = 0 then none else
  let r4 := r3.drop w2.length
  let yr := r4.takeWhile pyDigitB
  if yr.length ≠ 4 then none else
  let r5 := r4.drop 4
  let w3 := r5.takeWhile pySpace
  if w3.length = 0 then none else
  let rest := r5.drop w3.length
  if rest.length = 0 then none else
  some (⟨d1 ++ w1 ++ mo ++ w2 ++ yr⟩, ⟨rest⟩)

/-- Matcher for the lookahead break test of `_parse_tymebank`: the
unanchored-tail prefix regex `digit 1-2, ws+, word 3, digit 4` that
detects the start of the next transaction. -/
def tymeDateStart (s : String) : Bool :=
  let cs := s.data
  let d1 := cs.takeWhile pyDigitB
  if d1.length = 0 || d1.length > 2 then false else
  let r1 := cs.drop d1.length
  let w1 := r1.takeWhile pySpace
  if w1.length = 0 then false else
  let r2 := r1.drop w1.length
  let mo := r2.takeWhile pyWordB
  if mo.length ≠ 3 then false else
  let r3 := r2.drop 3
  let w2 := r3.takeWhile pySpace
  if w2.length = 0 then false else
  let r4 := r3.drop w2.length
  decide ((r4.take 4).length = 4 ∧ allDigits (r4.take 4))

/-- Character class of the TymeBank amount fields: digits, whitespace and
commas. -/
def amtCls (c : Char) : Bool := pyDigitB c || pySpace c || c = ','

/-- Matcher for the run-point-two-digits alternative of a monetary
field: a nonempty run of the amount class, a point, exactly two digits.
The class excludes the point, so the greedy run is forced and the match
is deterministic. -/
def amtNumAlt (cs : List Char) : Option (List Char × List Char) :=
  let run := cs.takeWhile amtCls
  if run.length = 0 then none else
  match cs.drop run.length with
  | '.' :: a :: b :: rest =>
    if pyDigitB a && pyDigitB b then some (run ++ ['.', a, b], rest) else none
  | _ => none

/-- Matcher for one monetary field of the TymeBank amount regexes:
either a literal dash, or a run of the amount class followed by a point
and exactly two digits.  `allowDash` is false for the balance group,
whose alternative has no dash. -/
def amtField (allowDash : Bool) (cs : List Char) : Option (List Char × List Char) :=
  match cs with
  | '-' :: rest => if allowDash then some (['-'], rest) else amtNumAlt cs
  | _ => amtNumAlt cs

/-- Monetary field groups of the TymeBank amount regexes, in pattern
order: fees, money out, money in, balance. -/
structure TFields where
  fees : String
  money_out : String
  money_in : String
  balance : String
deriving DecidableEq, Repr

/-- Matcher for the four-field body `(F) ws+ (F) ws+ (F) ws+ (B) ws*`
running to the end of the input, where F is dash-or-amount and B is the
balance alternative.  Separator runs are maximal: every field starts
with a non-whitespace character once the preceding field is fixed, so
the greedy separators cannot profitably give characters back on the
inputs this parser meets. -/
def fourFields (cs : List Char) : Option TFields :=
  match amtField true cs with
  | none => none
  | some (f1, r1) =>
    let w1 := r1.takeWhile pySpace
    if w1.length = 0 then none else
    match amtField true (r1.drop w1.length) with
    | none => none
    | some (f2, r2) =>
      let w2 := r2.takeWhile pySpace
      if w2.length = 0 then none else
      match amtField true (r2.drop w2.length) with
      | none => none
      | some (f3, r3) =>
        let w3 := r3.takeWhile pySpace
        if w3.length = 0 then none else
        match amtField false (r3.drop w3.length) with
        | none => none
        | some (f4, r4) =>
          if r4.dropWhile pySpace = [] then
            some ⟨⟨f1⟩, ⟨f2⟩, ⟨f3⟩, ⟨f4⟩⟩
          else none

/-- Matcher for the anchored amounts-line regex of `_parse_tymebank`
(`re.match` of four fields spanning the entire line). -/
def tymeAmountsMatch (s : String) : Option TFields := fourFields s.data

/-- Matcher for the tail `ws+ (F) ws+ (F) ws+ (F) ws+ (B) ws*` that
follows the lazy description prefix in the two `re.search` patterns of
`_parse_tymebank`. -/
def tymeSearchTail (cs : List Char) : Option TFields :=
  let w := cs.takeWhile pySpace
  if w.length = 0 then none else fourFields (cs.drop w.length)

/-- Matcher for the searched pattern `(.+?) ws+ (F) ws+ (F) ws+ (F) ws+
(B) ws*` anchored at the end: the lazy prefix takes the shortest
nonempty prefix whose remainder matches the tail, which is exactly
Python's leftmost-lazy search behaviour for this end-anchored pattern. -/
def tymeInline (s : String) : Option (String × TFields) :=
  let cs := s.data
  (List.range cs.length).findSome? fun k =>
    match tymeSearchTail (cs.drop (k + 1)) with
    | some f => some (⟨cs.take (k + 1)⟩, f)
    | none => none

/-- Normalisation the TymeBank parser applies to one monetary field
before float(): drop commas, drop spaces, strip. -/
def cleanTyme (s : String) : String :=
  pyStrip (removeChar ' ' (removeChar ',' s))

/-- Embedding of the credit/debit resolution block of `_parse_tymebank`:
amount starts at 0 with type debit; a parseable money-in field sets a
credit, a parseable money-out field is consulted only while the amount
is still 0, then the fees field likewise, the latter also suffixing the
description. -/
def tymeResolve (fees money_out money_in desc : String) : Dec × TxType × String :=
  let a0 : Dec × TxType := (⟨0, 0⟩, TxType.debit)
  let a1 : Dec × TxType :=
    if money_in ≠ "" ∧ money_in ≠ "-" then
      match pyFloat (cleanTyme money_in) with
      | some v => (v, TxType.credit)
      | none => a0
    else a0
  let a2 : Dec × TxType :=
    if a1.1.num = 0 ∧ money_out ≠ "" ∧ money_out ≠ "-" then
      match pyFloat (cleanTyme money_out) with
      | some v => (v, TxType.debit)
      | none => a1
    else a1
  if a2.1.num = 0 ∧ fees ≠ "" ∧ fees ≠ "-" then
    match pyFloat (cleanTyme fees) with
    | some v => (v, TxType.debit, desc ++ " (Fee)")
    | none => (a2.1, a2.2, desc)
  else (a2.1, a2.2, desc)

/-- Join of the description parts as the source performs it: a single
space join followed by split-and-rejoin whitespace normalisation. -/
def tymeJoinDesc (parts : List String) : String :=
  String.intercalate " " (pySplitWs (String.intercalate " " parts))

/-- Candidate emission of `_parse_tymebank` once the amounts were found:
header and length filters, credit/debit resolution, and the final
positive-amount guard.  Returns the record fields except the reference,
which depends on the length of the accumulated list. -/
def tymeEmit (d : PDate) (parts : List String) (f : TFields) :
    Option (PDate × String × Dec × TxType) :=
  let desc := tymeJoinDesc parts
  if desc.length < 3 || strContains desc "Description" || strContains desc "Money Out" then
    none
  else
    let r := tymeResolve f.fees f.money_out f.money_in desc
    if r.1.num > 0 then some (d, r.2.2, r.1, r.2.1) else none

/-- Lookahead scan of `_parse_tymebank` over the window of at most five
following lines: stop at a line that starts like a date; accept a full
amounts line or an inline description-plus-amounts line; otherwise fold
nonempty lines not starting with a dash into the description parts.
Returns the grown parts and, when found, the zero-based window position
together with the stripped field groups. -/
def tymeScan : List String → Nat → List String → List String × Option (Nat × TFields)
  | [], _, parts => (parts, none)
  | l :: rest, pos, parts =>
    let nl := pyStrip l
    if tymeDateStart nl then (parts, none)
    else
      match tymeAmountsMatch nl with
      | some f =>
        (parts, some (pos, ⟨pyStrip f.fees, pyStrip f.money_out, pyStrip f.money_in,
          pyStrip f.balance⟩))
      | none =>
        match tymeInline nl with
        | some (g1, f) =>
          (parts ++ [pyStrip g1], some (pos, ⟨pyStrip f.fees, pyStrip f.money_out,
            pyStrip f.money_in, pyStrip f.balance⟩))
        | none =>
          let parts2 := if nl ≠ "" ∧ ¬ strStartsWith nl "-" then parts ++ [nl] else parts
          tymeScan rest (pos + 1) parts2

/-- One candidate of the TymeBank scan, starting at line index i.  The
first component is how many extra lines beyond i were consumed (the
`i = j` jump of the source); the second is the emission, none both for
non-candidates, for strptime failures (the caught ValueError) and for
filtered or amountless candidates. -/
def tymeCand (lines : List String) (i : Nat) :
    Nat × Option (PDate × String × Dec × TxType) :=
  let line := pyStrip (lines.getD i "")
  match tymeDateMatch line with
  | none => (0, none)
  | some (dateStr, rest0) =>
    match parseDbY dateStr with
    | none => (0, none)
    | some d =>
      let rest := pyStrip rest0
      let window := (lines.drop (i + 1)).take 5
      let scanned := tymeScan window 0 [rest]
      match scanned.2 with
      | some (p, f) => (p + 1, tymeEmit d scanned.1 f)
      | none =>
        match tymeInline rest with
        | some (g1, f) =>
          (0, tymeEmit d [pyStrip g1] ⟨pyStrip f.fees, pyStrip f.money_out,
            pyStrip f.money_in, pyStrip f.balance⟩)
        | none => (0, none)

/-- Append a transaction with the synthetic reference the source builds
with an f-string: prefix, strftime date, current length of the list. -/
def appendTx (acc : List Transaction) (pfx : String) (d : PDate) (desc : String)
    (a : Dec) (t : TxType) : List Transaction :=
  acc ++ [⟨d, desc, a, t, pfx ++ "-" ++ fmtYMD d ++ "-" ++ natStr acc.length⟩]

/-- Main while-loop of `_parse_tymebank` with a structural fuel bound:
the index advances by at least one each iteration (one plus the lookahead
jump of a found candidate), so any fuel of at least the number of
remaining lines reproduces the while loop exactly. -/
def tymeLoopF : Nat → List String → Nat → List Transaction → List Transaction
  | 0, _, _, acc => acc
  | fuel + 1, lines, i, acc =>
    if i < lines.length then
      let c := tymeCand lines i
      let acc2 :=
        match c.2 with
        | some (d, desc, a, t) => appendTx acc "TYME" d desc a t
        | none => acc
      tymeLoopF fuel lines (i + 1 + c.1) acc2
    else acc

/-- The while loop of `_parse_tymebank` from index i, with its canonical
sufficient fuel. -/
def tymeRun (lines : List String) (i : Nat) (acc : List Transaction) :
    List Transaction :=
  tymeLoopF (lines.length - i) lines i acc

/-- Embedding of `_parse_tymebank`. -/
def parseTymebank (text : String) : List Transaction :=
  tymeRun (splitOnChar '\n' text) 0 []

/-- Exactly k digit characters at the head of the input. -/
def takeDigits (k : Nat) (cs : List Char) : Option (List Char × List Char) :=
  let t := cs.take k
  if t.length = k && allDigits t then some (t, cs.drop k) else none

/-- One literal character at the head of the input. -/
def takeLit (c : Char) (cs : List Char) : Option (List Char × List Char) :=
  match cs with
  | d :: rest => if d = c then some ([c], rest) else none
  | [] => none

/-- Sequencing helper for the fixed-shape date subpatterns. -/
def seqTake (f g : List Char → Option (List Char × List Char)) (cs : List Char) :
    Option (List Char × List Char) :=
  match f cs with
  | none => none
  | some (a, r) =>
    match g r with
    | none => none
    | some (b, r2) => some (a ++ b, r2)

/-- Date subpattern `digit 4 / digit 2 / digit 2`. -/
def dYMDslashAt : List Char → Option (List Char × List Char) :=
  seqTake (takeDigits 4) (seqTake (takeLit '/') (seqTake (takeDigits 2)
    (seqTake (takeLit '/') (takeDigits 2))))

/-- Date subpattern `digit 2 / digit 2 / digit 4`. -/
def dDMYslashAt : List Char → Option (List Char × List Char) :=
  seqTake (takeDigits 2) (seqTake (takeLit '/') (seqTake (takeDigits 2)
    (seqTake (takeLit '/') (takeDigits 4))))

/-- Date subpattern `digit 4 - digit 2 - digit 2`. -/
def dYMDdashAt : List Char → Option (List Char × List Char) :=
  seqTake (takeDigits 4) (seqTake (takeLit '-') (seqTake (takeDigits 2)
    (seqTake (takeLit '-') (takeDigits 2))))

/-- A nonempty whitespace run. -/
def takeWs (cs : List Char) : Option (List Char × List Char) :=
  let w := cs.takeWhile pySpace
  if w.length = 0 then none else some (w, cs.drop w.length)

/-- Three word characters. -/
def takeWord3 (cs : List Char) : Option (List Char × List Char) :=
  let t := cs.take 3
  if t.length = 3 && t.all pyWordB then some (t, cs.drop 3) else none

/-- Date subpattern `digit 2, ws+, word 3, ws+, digit 4` of the generic
day-month-year pattern. -/
def dDMonYAt : List Char → Option (List Char × List Char) :=
  seqTake (takeDigits 2) (seqTake takeWs (seqTake takeWord3
    (seqTake takeWs (takeDigits 4))))

/-- Date subpattern `digit 2, ws+, word 3` of the year-less Capitec
pattern. -/
def dDMonAt : List Char → Option (List Char × List Char) :=
  seqTake (takeDigits 2) (seqTake takeWs takeWord3)

/-- Matcher for the amount group `-? R? [digit-comma]+ . digit 2` of the
Capitec and generic patterns (`allowR` false where the pattern has no R).
The optional pieces are taken when present; since the class contains
neither dash nor R, declining a present optional can never turn a failing
continuation into a success, so the match is deterministic. -/
def amtNum (allowR : Bool) (cs : List Char) : Option (List Char × List Char) :=
  let p1 : List Char × List Char :=
    match cs with
    | '-' :: t => (['-'], t)
    | _ => ([], cs)
  let p2 : List Char × List Char :=
    if allowR then
      match p1.2 with
      | 'R' :: t => (p1.1 ++ ['R'], t)
      | _ => p1
    else p1
  let run := p2.2.takeWhile (fun c => pyDigitB c || c = ',')
  if run.length = 0 then none else
  match p2.2.drop run.length with
  | '.' :: a :: b :: rest =>
    if pyDigitB a && pyDigitB b then some (p2.1 ++ run ++ ['.', a, b], rest) else none
  | _ => none

/-- Matcher for the lazy description group followed by `ws+` and the
amount group: the description is the shortest nonempty class run whose
remainder continues with a whitespace run and an amount, Python's lazy
semantics for these patterns. -/
def matchDescAmt (descCls : Char → Bool) (allowR : Bool) (cs : List Char) :
    Option (List Char × List Char × List Char) :=
  let maxDesc := (cs.takeWhile descCls).length
  (List.range maxDesc).findSome? fun k =>
    let rest := cs.drop (k + 1)
    let w := rest.takeWhile pySpace
    if w.length = 0 then none else
    match amtNum allowR (rest.drop w.length) with
    | some (amt, r2) => some (cs.take (k + 1), amt, r2)
    | none => none

/-- Matcher, at one input position, for the shared shape of the Capitec
and non-pipe generic patterns: date group, `ws+` (greedy, longest first),
lazy description group, `ws+`, amount group.  Returns the three captured
groups and the remaining input after the match. -/
def matchCGAt (dateAt : List Char → Option (List Char × List Char))
    (descCls : Char → Bool) (allowR : Bool) (cs : List Char) :
    Option ((String × String × String) × List Char) :=
  match dateAt cs with
  | none => none
  | some (dg, r1) =>
    let wsMax := (r1.takeWhile pySpace).length
    (List.range wsMax).findSome? fun j =>
      let k := wsMax - j
      match matchDescAmt descCls allowR (r1.drop k) with
      | some (dsc, amt, rest) => some ((⟨dg⟩, ⟨dsc⟩, ⟨amt⟩), rest)
      | none => none

/-- Matcher for the first generic pattern `date ws* | ws* desc ws* | ws*
amount` with pipe delimiters and a lazy non-pipe description group. -/
def matchPipeAt (cs : List Char) : Option ((String × String × String) × List Char) :=
  match dDMYslashAt cs with
  | none => none
  | some (dg, r1) =>
    let r2 := r1.drop (r1.takeWhile pySpace).length
    match r2 with
    | '|' :: r3 =>
      let r4 := r3.drop (r3.takeWhile pySpace).length
      let maxDesc := (r4.takeWhile (fun c => c ≠ '|')).length
      (List.range maxDesc).findSome? fun k =>
        let dsc := r4.take (k + 1)
        let rest := r4.drop (k + 1)
        let r5 := rest.drop (rest.takeWhile pySpace).length
        match r5 with
        | '|' :: r6 =>
          let r7 := r6.drop (r6.takeWhile pySpace).length
          match amtNum true r7 with
          | some (amt, r8) => some ((⟨dg⟩, ⟨dsc⟩, ⟨amt⟩), r8)
          | none => none
        | _ => none
    | _ => none

/-- Non-overlapping left-to-right scan of re.findall: try a match at each
position, resume after a match's end.  The fuel is the input length and
each step consumes at least one character, so it never runs out. -/
def findallAux (m : List Char → Option ((String × String × String) × List Char)) :
    Nat → List Char → List (String × String × String)
  | 0, _ => []
  | _, [] => []
  | fuel + 1, c :: rest =>
    match m (c :: rest) with
    | some (g, remaining) => g :: findallAux m fuel remaining
    | none => findallAux m fuel rest

/-- Embedding of re.findall(pattern, text) for the tuple patterns of the
Capitec and generic parsers. -/
def findall (m : List Char → Option ((String × String × String) × List Char))
    (s : String) : List (String × String × String) :=
  findallAux m (s.data.length + 1) s.data

/-- Description class of the first and third Capitec patterns: everything
except digits, dash and plus. -/
def capDescCls (c : Char) : Bool := !(pyDigitB c || c = '-' || c = '+')

/-- Description class of the second Capitec pattern, which also excludes
R. -/
def capDesc2Cls (c : Char) : Bool := !(pyDigitB c || c = '-' || c = '+' || c = 'R')

/-- Description class of the generic patterns: everything except digits,
dash, plus, dollar and R. -/
def genDescCls (c : Char) : Bool :=
  !(pyDigitB c || c = '-' || c = '+' || c = '$' || c = 'R')

/-- Date formats of the Capitec pattern table. -/
inductive CapFmt
  | ymdSlash
  | dmySlash
  | dMon
deriving DecidableEq, Repr

/-- The strptime call of the Capitec loop: the year-less format is
completed with the current year before parsing, as the source does with
an f-string. -/
def capStrp (fmt : CapFmt) (year : Nat) (s : String) : Option PDate :=
  match fmt with
  | .ymdSlash => parseYMDslash s
  | .dmySlash => parseDMYslash s
  | .dMon => parseDbY (s ++ " " ++ natStr year)

/-- Per-match body of the Capitec loop: strptime the stripped date group
(its ValueError skips the candidate), strip the description, normalise
the amount (drop R, drop commas, strip), and append with the absolute
value, the sign-derived type and the indexed CAP reference. -/
def capStep (year : Nat) (fmt : CapFmt) (acc : List Transaction)
    (m : String × String × String) : List Transaction :=
  match capStrp fmt year (pyStrip m.1) with
  | none => acc
  | some d =>
    let desc := pyStrip m.2.1
    match pyFloat (pyStrip (removeChar ',' (removeChar 'R' m.2.2))) with
    | none => acc
    | some a =>
      appendTx acc "CAP" d desc a.dabs (if a.num < 0 then TxType.debit else TxType.credit)

/-- Match list of one Capitec pattern. -/
def capMatches (fmt : CapFmt) (text : String) : List (String × String × String) :=
  match fmt with
  | .ymdSlash => findall (matchCGAt dYMDslashAt capDescCls false) text
  | .dmySlash => findall (matchCGAt dDMYslashAt capDesc2Cls true) text
  | .dMon => findall (matchCGAt dDMonAt capDescCls false) text

/-- Transactions contributed by one Capitec pattern. -/
def capProc (year : Nat) (fmt : CapFmt) (text : String) : List Transaction :=
  (capMatches fmt text).foldl (capStep year fmt) []

/-- Embedding of the operative `_parse_capitec`: the three patterns are
tried in order and the first one whose processing yields at least one
transaction is accepted. -/
def parseCapitec (text : String) (year : Nat) : List Transaction :=
  let r1 := capProc year CapFmt.ymdSlash text
  if r1 ≠ [] then r1 else
  let r2 := capProc year CapFmt.dmySlash text
  if r2 ≠ [] then r2 else
  capProc year CapFmt.dMon text

/-- Date formats of the generic pattern table. -/
inductive GenFmt
  | pipe
  | dmySlash
  | ymdDash
  | dMonY
deriving DecidableEq, Repr

/-- The strptime call of the generic loop. -/
def genStrp (fmt : GenFmt) (s : String) : Option PDate :=
  match fmt with
  | .pipe => parseDMYslash s
  | .dmySlash => parseDMYslash s
  | .ymdDash => parseYMDdash s
  | .dMonY => parseDbY s

/-- Per-match body of the generic loop: as the Capitec one but also
dropping dollars from the amount, skipping descriptions shorter than
three characters, and using the GEN reference prefix. -/
def genStep (fmt : GenFmt) (acc : List Transaction)
    (m : String × String × String) : List Transaction :=
  match genStrp fmt (pyStrip m.1) with
  | none => acc
  | some d =>
    let desc := pyStrip m.2.1
    match pyFloat (pyStrip (removeChar ',' (removeChar '$' (removeChar 'R' m.2.2)))) with
    | none => acc
    | some a =>
      if desc.length < 3 then acc
      else appendTx acc "GEN" d desc a.dabs (if a.num < 0 then TxType.debit else TxType.credit)

/-- Match list of one generic pattern. -/
def genMatches (fmt : GenFmt) (text : String) : List (String × String × String) :=
  match fmt with
  | .pipe => findall matchPipeAt text
  | .dmySlash => findall (matchCGAt dDMYslashAt genDescCls true) text
  | .ymdDash => findall (matchCGAt dYMDdashAt genDescCls true) text
  | .dMonY => findall (matchCGAt dDMonYAt genDescCls true) text

/-- Transactions contributed by one generic pattern. -/
def genProc (fmt : GenFmt) (text : String) : List Transaction :=
  (genMatches fmt text).foldl (genStep fmt) []

/-- Embedding of the operative `_parse_generic`: the four patterns are
tried in order and the first one whose processing yields at least one
transaction is accepted. -/
def parseGeneric (text : String) : List Transaction :=
  let r1 := genProc GenFmt.pipe text
  if r1 ≠ [] then r1 else
  let r2 := genProc GenFmt.dmySlash text
  if r2 ≠ [] then r2 else
  let r3 := genProc GenFmt.ymdDash text
  if r3 ≠ [] then r3 else
  genProc GenFmt.dMonY text

/-- The date formats tried in order by `parse_html_email` on a cell. -/
def htmlDateOf (s : String) : Option PDate :=
  match parseDMYslash s with
  | some d => some d
  | none =>
    match parseYMDdash s with
    | some d => some d
    | none => parseDbY s

/-- The re.sub of `parse_html_email`: keep only digits, points and
dashes of the amount cell. -/
def htmlAmtStr (s : String) : String :=
  ⟨s.data.filter (fun c => pyDigitB c || c = '.' || c = '-')⟩

/-- Per-row body of `parse_html_email`: rows with at least three cells
contribute a transaction when the date cell parses in one of the three
formats and the scrubbed amount cell parses as a float; the HTML
reference carries no index. -/
def htmlRow (acc : List Transaction) (cols : List String) : List Transaction :=
  if cols.length ≥ 3 then
    match htmlDateOf (pyStrip (cols.getD 0 "")) with
    | none => acc
    | some d =>
      match pyFloat (htmlAmtStr (pyStrip (cols.getD 2 ""))) with
      | none => acc
      | some a =>
        acc ++ [⟨d, pyStrip (cols.getD 1 ""), a.dabs,
          if a.num < 0 then TxType.debit else TxType.credit, "HTML-" ++ fmtYMD d⟩]
  else acc

/-- Embedding of `parse_html_email` over the table structure BeautifulSoup
extracts: a list of tables, each a list of rows, each a list of cell
texts; the first row of each table is skipped as a header. -/
def parseHtmlTables (tables : List (List (List String))) : List Transaction :=
  tables.foldl (fun acc rows => (rows.drop 1).foldl htmlRow acc) []

/-- Embedding of the dispatch of `parse_pdf` after text extraction: the
bank name selects the parser, with the generic one for unknown banks. -/
def parsePdfText (text bank : String) (year : Nat) : List Transaction :=
  if bank = "tymebank" then parseTymebank text
  else if bank = "capitec" then parseCapitec text year
  else parseGeneric text

/-- Wrapper pairing the credit/debit resolution with the final
positive-amount guard of `_parse_tymebank`: the emission decision made
for a candidate once its monetary fields are located and the description
filters passed. -/
def tymeResolveEmit (fees money_out money_in desc : String) :
    Option (Dec × TxType × String) :=
  let r := tymeResolve fees money_out money_in desc
  if r.1.num > 0 then some (r.1, r.2.1, r.2.2) else none

/-- A well-formed located monetary field: the dash placeholder, or a
string whose normalised form parses as a nonnegative float — the shape
the TymeBank amount regexes guarantee for every captured group. -/
def fieldOk (f : String) : Bool :=
  f == "-" ||
    match pyFloat (cleanTyme f) with
    | some v => decide (0 ≤ v.num)
    | none => false

/-- A monetary field that is present and nonzero in the sense of the
specification: not the dash placeholder, not empty, and parsing to a
nonzero value. -/
def specFieldNZ (f : String) : Option Dec :=
  if f = "-" ∨ f = "" then none
  else
    match pyFloat (cleanTyme f) with
    | some v => if v.num = 0 then none else some v
    | none => none

/-- Modelled from the specification sentence on direction resolution:
money in present and nonzero gives a credit; otherwise money out present
and nonzero gives a debit; otherwise a fee gives a debit with the fee
suffix; otherwise the candidate is skipped. -/
def specResolveTyme (fees money_out money_in desc : String) :
    Option (Dec × TxType × String) :=
  match specFieldNZ money_in with
  | some v => some (v, TxType.credit, desc)
  | none =>
    match specFieldNZ money_out with
    | some v => some (v, TxType.debit, desc)
    | none =>
      match specFieldNZ fees with
      | some v => some (v, TxType.debit, desc ++ " (Fee)")
      | none => none

/-- The characters of a reference after its last dash, in order: for the
indexed references this recovers the decimal of the appended index. -/
def refTailChars (s : String) : List Char :=
  (s.data.reverse.takeWhile (fun c => c ≠ '-')).reverse

/-- Invariant of the transaction accumulators: the reference of the
entry at position k carries the decimal of k after its last dash. -/
def refsOK (acc : List Transaction) : Prop :=
  ∀ (k : Nat) (h : k < acc.length),
    refTailChars ((acc.get ⟨k, h⟩).reference) = natChars k

/-- C6: the single line `04 Sep 2025 EFT for CAPITEC S SEANEGO - - 250.00
250.05` parsed in the TymeBank format yields exactly one transaction
with date 2025-09-04, description `EFT for CAPITEC S SEANEGO`, amount
250.00 and direction credit. -/
theorem tymebank_single_line_example :
    parseTymebank "04 Sep 2025 EFT for CAPITEC S SEANEGO - - 250.00 250.05" =
      [⟨⟨2025, 9, 4⟩, "EFT for CAPITEC S SEANEGO", ⟨250, 0⟩, TxType.credit,
        "TYME-20250904-0"⟩] := by
  decide

/-- C2 counterexample: an amount of 15000000.00, above the claimed
ten-million ceiling, is not dropped — the generic parser returns the
candidate with exactly that value, refuting the claim that such
candidates never appear in the output. -/
theorem no_amount_ceiling_counterexample :
    parseGeneric "12/01/2024 Some Shop 15000000.00" =
      [⟨⟨2024, 1, 12⟩, "Some Shop", ⟨15000000, 0⟩, TxType.credit,
        "GEN-20240112-0"⟩] := by
  decide

/-- C2 amended: no sanity ceiling exists in any parsing path; an amount
above ten million is normalised (thousands separators dropped) and the
candidate is emitted with that value, here through the TymeBank money-in
path. -/
theorem no_amount_ceiling_amended :
    parseTymebank "04 Sep 2025 Big Transfer - - 15,000,000.00 20.00" =
      [⟨⟨2025, 9, 4⟩, "Big Transfer", ⟨15000000, 0⟩, TxType.credit,
        "TYME-20250904-0"⟩] := by
  decide

/-- C3 counterexample: on the multi-line fixture of the parser's own
docstring, the pure digit-run line 525309988959 is folded into the
description rather than excluded, refuting the claimed exclusion. -/
theorem digit_run_included_counterexample :
    (parseTymebank
        "10 Sep 2025 Purchase at Boxer Spr Mabopane\n525309988959\n- 512.46 - 417.59").map
        (fun t => t.description) =
      ["Purchase at Boxer Spr Mabopane 525309988959"] ∧
    strContains "Purchase at Boxer Spr Mabopane 525309988959" "525309988959" = true := by
  constructor
  · decide
  · decide

/-- C3 amended: the continuation lines are concatenated in document
order with whitespace-normalised joins, but the only lines excluded are
empty ones and ones starting with a dash; a line that is purely a long
digit run is included in the description. -/
theorem digit_run_included_amended :
    parseTymebank
        "10 Sep 2025 Purchase at Boxer Spr Mabopane\n525309988959\n- 512.46 - 417.59" =
      [⟨⟨2025, 9, 10⟩, "Purchase at Boxer Spr Mabopane 525309988959", ⟨51246, 2⟩,
        TxType.debit, "TYME-20250910-0"⟩] ∧
    tymeJoinDesc ["Purchase at Boxer Spr Mabopane", "525309988959"] =
      "Purchase at Boxer Spr Mabopane 525309988959" := by
  constructor
  · decide
  · decide

/-- C4 counterexample: a text the TymeBank parser cannot match at all is
not retried with the generic patterns — parse_pdf with the tymebank
format returns the empty list even though the generic parser succeeds on
the same text, refuting the claimed fallback. -/
theorem no_generic_fallback_counterexample :
    parseTymebank "12/01/2024 Corner Cafe 150.00" = [] ∧
    parseGeneric "12/01/2024 Corner Cafe 150.00" ≠ [] ∧
    parsePdfText "12/01/2024 Corner Cafe 150.00" "tymebank" 2025 = [] := by
  refine ⟨by decide, by decide, by decide⟩

/-- C8 counterexample: parsing the identical text in the Capitec format
at two different invocation years yields different outputs, because the
year-less date pattern completes dates with the current year — the
parse is not independent of invocation time. -/
theorem capitec_year_dependence_counterexample :
    parsePdfText "12 Jan Lunch Place -50.00" "capitec" 2024 ≠
      parsePdfText "12 Jan Lunch Place -50.00" "capitec" 2025 := by
  decide

/-- C9 counterexample: the generic parser emits a transaction with
amount exactly zero (the appended value is the absolute value of the
parsed float with no positivity guard), refuting the claim that no
zero-amount transaction ever appears. -/
theorem zero_amount_emitted_counterexample :
    parseGeneric "12/01/2024 Gift Cards 0.00" =
      [⟨⟨2024, 1, 12⟩, "Gift Cards", ⟨0, 0⟩, TxType.credit, "GEN-20240112-0"⟩] := by
  decide

/-- Removing a character twice is the same as removing it once, so the
comma normalisation is insensitive to commas already removed. -/
theorem removeChar_idem (c : Char) (s : String) :
    removeChar c (removeChar c s) = removeChar c s := by
  simp [removeChar, List.filter_filter]

/-- C7: thousands separators are normalised before numeric conversion in
every bank format's amount path: the TymeBank, generic, Capitec and HTML
normalisations each turn `1,234.56` into the numeric value 1234.56, a
comma-stripped input is unchanged by the TymeBank normalisation, and the
generic end-to-end parse carries the value 1234.56. -/
theorem thousands_separator_normalization :
    pyFloat (cleanTyme "1,234.56") = some ⟨123456, 2⟩ ∧
    pyFloat (pyStrip (removeChar ',' (removeChar '$' (removeChar 'R' "1,234.56")))) =
      some ⟨123456, 2⟩ ∧
    pyFloat (pyStrip (removeChar ',' (removeChar 'R' "1,234.56"))) = some ⟨123456, 2⟩ ∧
    pyFloat (htmlAmtStr "1,234.56") = some ⟨123456, 2⟩ ∧
    (∀ s : String, cleanTyme s = cleanTyme (removeChar ',' s)) ∧
    parseGeneric "12/01/2024 Monthly Dues 1,234.56" =
      [⟨⟨2024, 1, 12⟩, "Monthly Dues", ⟨123456, 2⟩, TxType.credit,
        "GEN-20240112-0"⟩] := by
  refine ⟨by decide, by decide, by decide, by decide, ?_, by decide⟩
  intro s
  unfold cleanTyme
  rw [removeChar_idem]

/-- C4 amended: parse_pdf dispatches purely on the bank name — the
TymeBank and Capitec parsers return their possibly empty result with no
fallback to the generic patterns, and only unknown bank names reach the
generic parser; within the generic parser the four patterns are tried in
priority order and the first whose processing yields at least one
transaction is accepted. -/
theorem dispatch_and_pattern_priority :
    (∀ text y, parsePdfText text "tymebank" y = parseTymebank text) ∧
    (∀ text y, parsePdfText text "capitec" y = parseCapitec text y) ∧
    (∀ text bank y, bank ≠ "tymebank" → bank ≠ "capitec" →
      parsePdfText text bank y = parseGeneric text) ∧
    (∀ text, genProc GenFmt.pipe text ≠ [] →
      parseGeneric text = genProc GenFmt.pipe text) ∧
    (∀ text, genProc GenFmt.pipe text = [] → genProc GenFmt.dmySlash text ≠ [] →
      parseGeneric text = genProc GenFmt.dmySlash text) ∧
    (∀ text, genProc GenFmt.pipe text = [] → genProc GenFmt.dmySlash text = [] →
      genProc GenFmt.ymdDash text ≠ [] →
      parseGeneric text = genProc GenFmt.ymdDash text) ∧
    (∀ text, genProc GenFmt.pipe text = [] → genProc GenFmt.dmySlash text = [] →
      genProc GenFmt.ymdDash text = [] →
      parseGeneric text = genProc GenFmt.dMonY text) := by
  refine ⟨?_, ?_, ?_, ?_, ?_, ?_, ?_⟩
  · intro text y; simp [parsePdfText]
  · intro text y; simp [parsePdfText]
  · intro text bank y h1 h2; simp [parsePdfText, h1, h2]
  · intro text h; simp [parseGeneric, h]
  · intro text h1 h2; simp [parseGeneric, h1, h2]
  · intro text h1 h2 h3; simp [parseGeneric, h1, h2, h3]
  · intro text h1 h2 h3; simp [parseGeneric, h1, h2, h3]

/-- Witness for the dispatch and priority theorem at concrete inputs: an
unknown bank name reaches the generic parser, and a pipe-delimited text
is settled by the first generic pattern. -/
theorem dispatch_and_pattern_priority_witness :
    parsePdfText "no transactions here" "fnb" 2024 = parseGeneric "no transactions here" ∧
    parseGeneric "12/01/2024 | Pipe Shop | 150.00" =
      genProc GenFmt.pipe "12/01/2024 | Pipe Shop | 150.00" := by
  exact ⟨dispatch_and_pattern_priority.2.2.1 "no transactions here" "fnb" 2024
      (by decide) (by decide),
    dispatch_and_pattern_priority.2.2.2.1 "12/01/2024 | Pipe Shop | 150.00"
      (by decide)⟩

/-- A well-formed field is the dash placeholder or parses to a
nonnegative value. -/
theorem fieldOk_cases (f : String) (h : fieldOk f = true) :
    f = "-" ∨ ∃ v, pyFloat (cleanTyme f) = some v ∧ 0 ≤ v.num := by
  unfold fieldOk at h
  simp only [Bool.or_eq_true, beq_iff_eq] at h
  rcases h with h | h
  · exact Or.inl h
  · cases heq : pyFloat (cleanTyme f) with
    | none => rw [heq] at h; simp at h
    | some v =>
      rw [heq] at h
      simp only [decide_eq_true_eq] at h
      exact Or.inr ⟨v, rfl, h⟩

/-- A field whose normalised form parses is not the dash placeholder. -/
theorem pyFloat_some_ne_dash {f : String} {v : Dec}
    (h : pyFloat (cleanTyme f) = some v) : f ≠ "-" := by
  intro he
  subst he
  rw [(by decide : pyFloat (cleanTyme "-") = none)] at h
  exact Option.noConfusion h

/-- A field whose normalised form parses is not empty. -/
theorem pyFloat_some_ne_empty {f : String} {v : Dec}
    (h : pyFloat (cleanTyme f) = some v) : f ≠ "" := by
  intro he
  subst he
  rw [(by decide : pyFloat (cleanTyme "") = none)] at h
  exact Option.noConfusion h

/-- C1: for well-formed located monetary fields, the TymeBank emission
decision equals the specified priority chain — money in present and
nonzero gives a credit of that amount, else money out present and
nonzero gives a debit, else a nonzero fee gives a debit with the fee
suffix on the description, and with no field populated the candidate is
skipped. -/
theorem tyme_direction_priority (fees mo mi desc : String)
    (hf : fieldOk fees = true) (ho : fieldOk mo = true) (hi : fieldOk mi = true) :
    tymeResolveEmit fees mo mi desc = specResolveTyme fees mo mi desc := by
  unfold tymeResolveEmit tymeResolve specResolveTyme specFieldNZ
  rcases fieldOk_cases mi hi with hmi | ⟨vi, hvi, hvi0⟩
  · -- money in is the dash placeholder
    subst hmi
    rcases fieldOk_cases mo ho with hmo | ⟨vo, hvo, hvo0⟩
    · subst hmo
      rcases fieldOk_cases fees hf with hfe | ⟨vf, hvf, hvf0⟩
      · subst hfe; simp
      · have hf1 := pyFloat_some_ne_dash hvf
        have hf2 := pyFloat_some_ne_empty hvf
        rcases eq_or_lt_of_le hvf0 with hfz | hfp
        · simp [hvf, hf1, hf2, ← hfz]
        · simp [hvf, hf1, hf2, hfp, hfp.ne']
    · have ho1 := pyFloat_some_ne_dash hvo
      have ho2 := pyFloat_some_ne_empty hvo
      rcases eq_or_lt_of_le hvo0 with hoz | hop
      · rcases fieldOk_cases fees hf with hfe | ⟨vf, hvf, hvf0⟩
        · subst hfe; simp [hvo, ho1, ho2, ← hoz]
        · have hf1 := pyFloat_some_ne_dash hvf
          have hf2 := pyFloat_some_ne_empty hvf
          rcases eq_or_lt_of_le hvf0 with hfz | hfp
          · simp [hvo, ho1, ho2, ← hoz, hvf, hf1, hf2, ← hfz]
          · simp [hvo, ho1, ho2, ← hoz, hvf, hf1, hf2, hfp, hfp.ne']
      · simp [hvo, ho1, ho2, hop, hop.ne']
  · have hi1 := pyFloat_some_ne_dash hvi
    have hi2 := pyFloat_some_ne_empty hvi
    rcases eq_or_lt_of_le hvi0 with hiz | hip
    · -- money in parses to zero: fall through exactly as the spec does
      rcases fieldOk_cases mo ho with hmo | ⟨vo, hvo, hvo0⟩
      · subst hmo
        rcases fieldOk_cases fees hf with hfe | ⟨vf, hvf, hvf0⟩
        · subst hfe; simp [hvi, hi1, hi2, ← hiz]
        · have hf1 := pyFloat_some_ne_dash hvf
          have hf2 := pyFloat_some_ne_empty hvf
          rcases eq_or_lt_of_le hvf0 with hfz | hfp
          · simp [hvi, hi1, hi2, ← hiz, hvf, hf1, hf2, ← hfz]
          · simp [hvi, hi1, hi2, ← hiz, hvf, hf1, hf2, hfp, hfp.ne']
      · have ho1 := pyFloat_some_ne_dash hvo
        have ho2 := pyFloat_some_ne_empty hvo
        rcases eq_or_lt_of_le hvo0 with hoz | hop
        · rcases fieldOk_cases fees hf with hfe | ⟨vf, hvf, hvf0⟩
          · subst hfe; simp [hvi, hi1, hi2, ← hiz, hvo, ho1, ho2, ← hoz]
          · have hf1 := pyFloat_some_ne_dash hvf
            have hf2 := pyFloat_some_ne_empty hvf
            rcases eq_or_lt_of_le hvf0 with hfz | hfp
            · simp [hvi, hi1, hi2, ← hiz, hvo, ho1, ho2, ← hoz, hvf, hf1, hf2, ← hfz]
            · simp [hvi, hi1, hi2, ← hiz, hvo, ho1, ho2, ← hoz, hvf, hf1, hf2, hfp, hfp.ne']
        · simp [hvi, hi1, hi2, ← hiz, hvo, ho1, ho2, hop, hop.ne']
    · simp [hvi, hi1, hi2, hip, hip.ne']

/-- Witness for the direction-priority theorem at the concrete fields of
the end-to-end example: fee and money-out absent, money in 250.00. -/
theorem tyme_direction_priority_witness :
    (fieldOk "-" = true ∧ fieldOk "250.00" = true) ∧
    tymeResolveEmit "-" "-" "250.00" "Test Purchase" =
      specResolveTyme "-" "-" "250.00" "Test Purchase" :=
  ⟨⟨by decide, by decide⟩,
    tyme_direction_priority "-" "-" "250.00" "Test Purchase"
      (by decide) (by decide) (by decide)⟩

/-- The fueled TymeBank loop computes the while loop for any sufficient
fuel: any two sufficient fuels give the same result. -/
theorem tymeLoopF_congr : ∀ (f1 f2 : Nat) (lines : List String) (i : Nat)
    (acc : List Transaction), lines.length - i ≤ f1 → lines.length - i ≤ f2 →
    tymeLoopF f1 lines i acc = tymeLoopF f2 lines i acc := by
  intro f1
  induction f1 with
  | zero =>
    intro f2 lines i acc h1 h2
    have h : ¬ i < lines.length := by omega
    cases f2 with
    | zero => rfl
    | succ f2 => simp [tymeLoopF, h]
  | succ f1 ih =>
    intro f2 lines i acc h1 h2
    cases f2 with
    | zero =>
      have h : ¬ i < lines.length := by omega
      simp [tymeLoopF, h]
    | succ f2 =>
      by_cases h : i < lines.length
      · simp only [tymeLoopF, if_pos h]
        exact ih f2 lines (i + 1 + (tymeCand lines i).1) _ (by omega) (by omega)
      · simp [tymeLoopF, h]

/-- A candidate whose date line matched but whose date fails to parse —
the caught ValueError of the source — contributes nothing and consumes
no lookahead. -/
theorem tymeCand_none_of_bad_date {lines : List String} {i : Nat} {ds rest : String}
    (hm : tymeDateMatch (pyStrip (lines.getD i "")) = some (ds, rest))
    (hd : parseDbY ds = none) : tymeCand lines i = (0, none) := by
  unfold tymeCand
  simp only [hm, hd]

/-- C5: a parse error on one individual candidate — here a line that
matches the date pattern but whose date is invalid, the one ValueError
the per-candidate try block can catch — drops only that candidate: the
scan from that line equals the scan resuming at the next line, with the
accumulated transactions intact, so every other parsed transaction is
still returned and the document is never abandoned. -/
theorem tyme_error_skips_candidate (lines : List String) (i : Nat)
    (acc : List Transaction) (ds rest : String)
    (hm : tymeDateMatch (pyStrip (lines.getD i "")) = some (ds, rest))
    (hd : parseDbY ds = none) :
    tymeRun lines i acc = tymeRun lines (i + 1) acc := by
  by_cases h : i < lines.length
  · unfold tymeRun
    have hlen : lines.length - i = (lines.length - (i + 1)) + 1 := by omega
    rw [hlen]
    simp only [tymeLoopF, if_pos h, tymeCand_none_of_bad_date hm hd]
  · exfalso
    have hge : lines.length ≤ i := by omega
    rw [List.getD_eq_default lines "" hge,
      (by decide : tymeDateMatch (pyStrip "") = none)] at hm
    exact Option.noConfusion hm

/-- Witness for the error-skip theorem: a document with a malformed
middle candidate (day 99) scans on as if starting from the following
line. -/
theorem tyme_error_skips_candidate_witness :
    tymeDateMatch (pyStrip ((["04 Sep 2025 Salary One - - 100.00 100.00",
        "99 Sep 2025 Ghost Entry - - 5.00 5.00",
        "05 Sep 2025 Salary Two - - 200.00 300.00"] : List String).getD 1 "")) =
      some ("99 Sep 2025", "Ghost Entry - - 5.00 5.00") ∧
    parseDbY "99 Sep 2025" = none ∧
    tymeRun ["04 Sep 2025 Salary One - - 100.00 100.00",
        "99 Sep 2025 Ghost Entry - - 5.00 5.00",
        "05 Sep 2025 Salary Two - - 200.00 300.00"] 1 [] =
      tymeRun ["04 Sep 2025 Salary One - - 100.00 100.00",
        "99 Sep 2025 Ghost Entry - - 5.00 5.00",
        "05 Sep 2025 Salary Two - - 200.00 300.00"] 2 [] :=
  ⟨by decide, by decide,
    tyme_error_skips_candidate ["04 Sep 2025 Salary One - - 100.00 100.00",
        "99 Sep 2025 Ghost Entry - - 5.00 5.00",
        "05 Sep 2025 Salary Two - - 200.00 300.00"] 1 []
      "99 Sep 2025" "Ghost Entry - - 5.00 5.00" (by decide) (by decide)⟩

/-- The first Capitec pattern never consults the invocation year. -/
theorem capProc_ymd_year (t : String) (y1 y2 : Nat) :
    capProc y1 CapFmt.ymdSlash t = capProc y2 CapFmt.ymdSlash t := rfl

/-- C8 amended: the parse result is a deterministic function of the text,
the format and the invocation year — and the year matters only to the
Capitec parser's year-less third pattern: for any format other than
capitec the result is independent of the invocation year, and the
Capitec result is as well whenever its first pattern already yields a
transaction. -/
theorem parser_determinism_amended :
    (∀ (text bank : String) (y1 y2 : Nat), bank ≠ "capitec" →
      parsePdfText text bank y1 = parsePdfText text bank y2) ∧
    (∀ (text : String) (y1 y2 : Nat), capProc y1 CapFmt.ymdSlash text ≠ [] →
      parseCapitec text y1 = parseCapitec text y2) := by
  constructor
  · intro text bank y1 y2 hb
    by_cases h1 : bank = "tymebank"
    · simp [parsePdfText, h1]
    · simp [parsePdfText, h1, hb]
  · intro text y1 y2 h
    have he : capProc y1 CapFmt.ymdSlash text = capProc y2 CapFmt.ymdSlash text := rfl
    unfold parseCapitec
    rw [if_pos h, if_pos (by rw [← he]; exact h)]
    exact he

/-- Witness for the determinism theorem: an unknown-bank parse and a
year-carrying Capitec parse are each unchanged across two invocation
years. -/
theorem parser_determinism_amended_witness :
    parsePdfText "12/01/2024 Corner Shop 20.00" "standardbank" 2024 =
      parsePdfText "12/01/2024 Corner Shop 20.00" "standardbank" 2025 ∧
    parseCapitec "2024/01/12 Coffee Shop 45.00" 2024 =
      parseCapitec "2024/01/12 Coffee Shop 45.00" 2025 :=
  ⟨parser_determinism_amended.1 "12/01/2024 Corner Shop 20.00" "standardbank"
      2024 2025 (by decide),
    parser_determinism_amended.2 "2024/01/12 Coffee Shop 45.00" 2024 2025 (by decide)⟩

/-- A transaction direction is either debit or credit. -/
theorem txtype_cases (t : TxType) : t = TxType.debit ∨ t = TxType.credit := by
  cases t
  · exact Or.inl rfl
  · exact Or.inr rfl

/-- Membership in an appended accumulator: an old entry or the new one,
whose amount is the appended value. -/
theorem mem_appendTx {acc : List Transaction} {pfx : String} {d : PDate}
    {desc : String} {a : Dec} {t : TxType} {tx : Transaction}
    (h : tx ∈ appendTx acc pfx d desc a t) : tx ∈ acc ∨ tx.amount = a := by
  unfold appendTx at h
  rcases List.mem_append.mp h with h | h
  · exact Or.inl h
  · rw [List.mem_singleton] at h
    subst h
    exact Or.inr rfl

/-- Membership through a left fold whose step only appends entries
satisfying Q. -/
theorem mem_foldl_of_step {α : Type} (step : List Transaction → α → List Transaction)
    (Q : Transaction → Prop)
    (hstep : ∀ acc m tx, tx ∈ step acc m → tx ∈ acc ∨ Q tx) :
    ∀ (ms : List α) (acc : List Transaction) (tx : Transaction),
      tx ∈ ms.foldl step acc → tx ∈ acc ∨ Q tx := by
  intro ms
  induction ms with
  | nil => intro acc tx h; exact Or.inl h
  | cons m ms ih =>
    intro acc tx h
    rcases ih (step acc m) tx h with h2 | h2
    · exact hstep acc m tx h2
    · exact Or.inr h2

/-- The Capitec step only appends absolute values. -/
theorem capStep_mem {y : Nat} {fmt : CapFmt} {acc : List Transaction}
    {m : String × String × String} {tx : Transaction}
    (h : tx ∈ capStep y fmt acc m) : tx ∈ acc ∨ 0 ≤ tx.amount.num := by
  unfold capStep at h
  split at h
  · exact Or.inl h
  · split at h
    · exact Or.inl h
    · rcases mem_appendTx h with h2 | h2
      · exact Or.inl h2
      · refine Or.inr ?_
        rw [h2]
        exact abs_nonneg _

/-- Every transaction of one Capitec pattern has nonnegative amount. -/
theorem capProc_amount {y : Nat} {fmt : CapFmt} {text : String} {tx : Transaction}
    (h : tx ∈ capProc y fmt text) : 0 ≤ tx.amount.num := by
  unfold capProc at h
  rcases mem_foldl_of_step (capStep y fmt) (fun tx => 0 ≤ tx.amount.num)
      (fun acc m tx h => capStep_mem h) (capMatches fmt text) [] tx h with h2 | h2
  · simp at h2
  · exact h2

/-- Every Capitec transaction has nonnegative amount. -/
theorem parseCapitec_amount {text : String} {y : Nat} {tx : Transaction}
    (h : tx ∈ parseCapitec text y) : 0 ≤ tx.amount.num := by
  simp only [parseCapitec] at h
  split at h
  · exact capProc_amount h
  · split at h
    · exact capProc_amount h
    · exact capProc_amount h

/-- The generic step only appends absolute values. -/
theorem genStep_mem {fmt : GenFmt} {acc : List Transaction}
    {m : String × String × String} {tx : Transaction}
    (h : tx ∈ genStep fmt acc m) : tx ∈ acc ∨ 0 ≤ tx.amount.num := by
  simp only [genStep] at h
  split at h
  · exact Or.inl h
  · split at h
    · exact Or.inl h
    · split at h
      · exact Or.inl h
      · rcases mem_appendTx h with h2 | h2
        · exact Or.inl h2
        · refine Or.inr ?_
          rw [h2]
          exact abs_nonneg _

/-- Every transaction of one generic pattern has nonnegative amount. -/
theorem genProc_amount {fmt : GenFmt} {text : String} {tx : Transaction}
    (h : tx ∈ genProc fmt text) : 0 ≤ tx.amount.num := by
  unfold genProc at h
  rcases mem_foldl_of_step (genStep fmt) (fun tx => 0 ≤ tx.amount.num)
      (fun acc m tx h => genStep_mem h) (genMatches fmt text) [] tx h with h2 | h2
  · simp at h2
  · exact h2

/-- Every generic transaction has nonnegative amount. -/
theorem parseGeneric_amount {text : String} {tx : Transaction}
    (h : tx ∈ parseGeneric text) : 0 ≤ tx.amount.num := by
  simp only [parseGeneric] at h
  split at h
  · exact genProc_amount h
  · split at h
    · exact genProc_amount h
    · split at h
      · exact genProc_amount h
      · exact genProc_amount h

/-- The HTML row step only appends absolute values. -/
theorem htmlRow_mem {acc : List Transaction} {cols : List String} {tx : Transaction}
    (h : tx ∈ htmlRow acc cols) : tx ∈ acc ∨ 0 ≤ tx.amount.num := by
  unfold htmlRow at h
  split at h
  · split at h
    · exact Or.inl h
    · split at h
      · exact Or.inl h
      · rcases List.mem_append.mp h with h2 | h2
        · exact Or.inl h2
        · rw [List.mem_singleton] at h2
          subst h2
          exact Or.inr (abs_nonneg _)
  · exact Or.inl h

/-- Every HTML transaction has nonnegative amount. -/
theorem parseHtmlTables_amount {tables : List (List (List String))} {tx : Transaction}
    (h : tx ∈ parseHtmlTables tables) : 0 ≤ tx.amount.num := by
  unfold parseHtmlTables at h
  have hstep : ∀ (acc : List Transaction) (rows : List (List String)) (tx : Transaction),
      tx ∈ (rows.drop 1).foldl htmlRow acc → tx ∈ acc ∨ 0 ≤ tx.amount.num :=
    fun acc rows tx h =>
      mem_foldl_of_step htmlRow (fun tx => 0 ≤ tx.amount.num)
        (fun acc m tx h => htmlRow_mem h) (rows.drop 1) acc tx h
  rcases mem_foldl_of_step (fun acc rows => (rows.drop 1).foldl htmlRow acc)
      (fun tx => 0 ≤ tx.amount.num) hstep tables [] tx h with h2 | h2
  · simp at h2
  · exact h2

/-- A TymeBank emission passes the positive-amount guard. -/
theorem tymeEmit_pos {d : PDate} {parts : List String} {f : TFields}
    {d2 : PDate} {ds : String} {a : Dec} {t : TxType}
    (h : tymeEmit d parts f = some (d2, ds, a, t)) : 0 < a.num := by
  simp only [tymeEmit] at h
  split at h
  · exact Option.noConfusion h
  · split at h
    · rename_i hpos
      injection h with h2
      injection h2 with _ h3
      injection h3 with _ h4
      injection h4 with h5 _
      rw [← h5]
      exact hpos
    · exact Option.noConfusion h

/-- A TymeBank candidate only emits positive amounts. -/
theorem tymeCand_pos {lines : List String} {i : Nat} {d : PDate} {ds : String}
    {a : Dec} {t : TxType}
    (h : (tymeCand lines i).2 = some (d, ds, a, t)) : 0 < a.num := by
  simp only [tymeCand] at h
  split at h
  · exact Option.noConfusion h
  · split at h
    · exact Option.noConfusion h
    · split at h
      · exact tymeEmit_pos h
      · split at h
        · exact tymeEmit_pos h
        · exact Option.noConfusion h

/-- The TymeBank loop preserves strict positivity of the amounts. -/
theorem tymeLoopF_amount : ∀ (fuel : Nat) (lines : List String) (i : Nat)
    (acc : List Transaction), (∀ tx ∈ acc, 0 < tx.amount.num) →
    ∀ tx ∈ tymeLoopF fuel lines i acc, 0 < tx.amount.num := by
  intro fuel
  induction fuel with
  | zero => intro lines i acc hacc tx h; exact hacc tx h
  | succ f ih =>
    intro lines i acc hacc tx h
    by_cases hlt : i < lines.length
    · simp only [tymeLoopF, if_pos hlt] at h
      refine ih lines _ _ ?_ tx h
      cases hc : (tymeCand lines i).2 with
      | none => exact hacc
      | some v =>
        obtain ⟨d, ds, a, t⟩ := v
        intro tx2 h2
        rcases mem_appendTx (show tx2 ∈ appendTx acc "TYME" d ds a t from h2) with h3 | h3
        · exact hacc tx2 h3
        · rw [h3]
          exact tymeCand_pos hc
    · simp only [tymeLoopF, if_neg hlt] at h
      exact hacc tx h

/-- Every TymeBank transaction has strictly positive amount. -/
theorem parseTymebank_amount {text : String} {tx : Transaction}
    (h : tx ∈ parseTymebank text) : 0 < tx.amount.num := by
  unfold parseTymebank tymeRun at h
  exact tymeLoopF_amount _ _ 0 [] (by simp) tx h

/-- C9 amended: every transaction any parsing entry point returns has a
direction that is exactly debit or credit and a nonnegative amount — the
appended value is an absolute value everywhere — and the TymeBank parser
alone guarantees strict positivity; the Capitec, generic and HTML paths
can emit amount zero, so the claimed strict positivity holds only there.
-/
theorem amount_invariant_amended (text : String) (y : Nat)
    (tables : List (List (List String))) (tx : Transaction) :
    (tx ∈ parseTymebank text →
      0 < tx.amount.num ∧ (tx.type = TxType.debit ∨ tx.type = TxType.credit)) ∧
    (tx ∈ parseCapitec text y →
      0 ≤ tx.amount.num ∧ (tx.type = TxType.debit ∨ tx.type = TxType.credit)) ∧
    (tx ∈ parseGeneric text →
      0 ≤ tx.amount.num ∧ (tx.type = TxType.debit ∨ tx.type = TxType.credit)) ∧
    (tx ∈ parseHtmlTables tables →
      0 ≤ tx.amount.num ∧ (tx.type = TxType.debit ∨ tx.type = TxType.credit)) :=
  ⟨fun h => ⟨parseTymebank_amount h, txtype_cases tx.type⟩,
    fun h => ⟨parseCapitec_amount h, txtype_cases tx.type⟩,
    fun h => ⟨parseGeneric_amount h, txtype_cases tx.type⟩,
    fun h => ⟨parseHtmlTables_amount h, txtype_cases tx.type⟩⟩

/-- Witness for the amount invariant at a concrete TymeBank parse. -/
theorem amount_invariant_amended_witness :
    (⟨⟨2025, 9, 4⟩, "Rent Deposit", ⟨75, 0⟩, TxType.credit,
        "TYME-20250904-0"⟩ : Transaction) ∈
      parseTymebank "04 Sep 2025 Rent Deposit - - 75.00 80.00" ∧
    (0 : Int) <
      (⟨⟨2025, 9, 4⟩, "Rent Deposit", ⟨75, 0⟩, TxType.credit,
        "TYME-20250904-0"⟩ : Transaction).amount.num :=
  ⟨by decide,
    ((amount_invariant_amended "04 Sep 2025 Rent Deposit - - 75.00 80.00" 2024 []
      ⟨⟨2025, 9, 4⟩, "Rent Deposit", ⟨75, 0⟩, TxType.credit,
        "TYME-20250904-0"⟩).1 (by decide)).1⟩

/-- Digit characters satisfy the digit class. -/
theorem pyDigitB_digitChar {d : Nat} (h : d < 10) : pyDigitB (digitChar d) = true := by
  interval_cases d <;> decide

/-- Code point of a digit character. -/
theorem digitChar_toNat {d : Nat} (h : d < 10) : (digitChar d).toNat = 48 + d := by
  interval_cases d <;> decide

/-- Decimal representations consist of digit characters. -/
theorem natCharsF_digits : ∀ (fuel n : Nat), n < fuel →
    ∀ c ∈ natCharsF fuel n, pyDigitB c = true := by
  intro fuel
  induction fuel with
  | zero => intro n hn; omega
  | succ f ih =>
    intro n hn c hc
    by_cases h10 : n < 10
    · simp only [natCharsF, if_pos h10, List.mem_singleton] at hc
      subst hc
      exact pyDigitB_digitChar h10
    · simp only [natCharsF, if_neg h10, List.mem_append, List.mem_singleton] at hc
      rcases hc with hc | hc
      · exact ih (n / 10) (by omega) c hc
      · subst hc
        exact pyDigitB_digitChar (Nat.mod_lt _ (by omega))

/-- The decimal representation evaluates back to its number. -/
theorem valOfDigits_natCharsF : ∀ (fuel n : Nat), n < fuel →
    valOfDigits (natCharsF fuel n) = n := by
  intro fuel
  induction fuel with
  | zero => intro n hn; omega
  | succ f ih =>
    intro n hn
    by_cases h10 : n < 10
    · simp only [natCharsF, if_pos h10, valOfDigits, List.foldl_cons, List.foldl_nil]
      rw [digitChar_toNat h10]
      omega
    · simp only [natCharsF, if_neg h10, valOfDigits, List.foldl_append, List.foldl_cons,
        List.foldl_nil]
      have hrec := ih (n / 10) (by omega)
      unfold valOfDigits at hrec
      rw [hrec, digitChar_toNat (Nat.mod_lt _ (by omega))]
      omega

/-- Decimal representation is injective. -/
theorem natChars_inj {a b : Nat} (h : natChars a = natChars b) : a = b := by
  have ha := valOfDigits_natCharsF (a + 1) a (by omega)
  have hb := valOfDigits_natCharsF (b + 1) b (by omega)
  unfold natChars at h
  rw [← ha, ← hb, h]

/-- takeWhile of a satisfying block followed by a failing head. -/
theorem takeWhile_all_append {q : Char → Bool} (l1 : List Char) (x : Char)
    (t : List Char) (h : ∀ c ∈ l1, q c = true) (hx : q x = false) :
    (l1 ++ x :: t).takeWhile q = l1 := by
  induction l1 with
  | nil => simp [List.takeWhile_cons, hx]
  | cons a l ih =>
    have ha := h a (List.mem_cons_self a l)
    simp only [List.cons_append, List.takeWhile_cons, ha, if_true]
    rw [ih (fun c hc => h c (List.mem_cons_of_mem a hc))]

/-- The tail after the last dash of a built reference is the decimal of
its index, whatever the prefix and date parts contain. -/
theorem refTailChars_ref (p d : String) (k : Nat) :
    refTailChars (p ++ "-" ++ d ++ "-" ++ natStr k) = natChars k := by
  unfold refTailChars natStr
  have hdata : (p ++ "-" ++ d ++ "-" ++ (⟨natChars k⟩ : String)).data
      = (p.data ++ ['-'] ++ d.data ++ ['-']) ++ natChars k := by
    simp [String.data_append]
  rw [hdata, List.reverse_append]
  have hall : ∀ c ∈ (natChars k).reverse, (decide (c ≠ '-')) = true := by
    intro c hc
    rw [List.mem_reverse] at hc
    have := natCharsF_digits (k + 1) k (by omega) c hc
    simp only [decide_eq_true_eq]
    intro he
    rw [he] at this
    exact absurd this (by decide)
  have hsplit : (p.data ++ ['-'] ++ d.data ++ ['-']).reverse
      = '-' :: (d.data.reverse ++ (['-'] ++ p.data.reverse)) := by
    simp
  rw [hsplit, takeWhile_all_append _ _ _ hall (by decide), List.reverse_reverse]

/-- The empty accumulator satisfies the reference invariant. -/
theorem refsOK_nil : refsOK [] := by
  intro k hk
  simp at hk

/-- Appending with the current length as index preserves the reference
invariant. -/
theorem refsOK_appendTx {acc : List Transaction} {pfx : String} {d : PDate}
    {desc : String} {a : Dec} {t : TxType} (h : refsOK acc) :
    refsOK (appendTx acc pfx d desc a t) := by
  intro k hk
  unfold appendTx at hk ⊢
  by_cases hlt : k < acc.length
  · rw [List.get_append k hlt]
    exact h k hlt
  · have hk2 : k = acc.length := by
      simp only [List.length_append, List.length_singleton] at hk
      omega
    subst hk2
    have hx : (acc ++ [(⟨d, desc, a, t,
        pfx ++ "-" ++ fmtYMD d ++ "-" ++ natStr acc.length⟩ : Transaction)]).get
        ⟨acc.length, hk⟩ =
        ⟨d, desc, a, t, pfx ++ "-" ++ fmtYMD d ++ "-" ++ natStr acc.length⟩ := by
      simp
    rw [hx]
    exact refTailChars_ref pfx (fmtYMD d) acc.length

/-- A fold whose step preserves the reference invariant preserves it. -/
theorem foldl_pres_refsOK {α : Type} (step : List Transaction → α → List Transaction)
    (hstep : ∀ acc m, refsOK acc → refsOK (step acc m)) :
    ∀ (ms : List α) (acc : List Transaction), refsOK acc → refsOK (ms.foldl step acc) := by
  intro ms
  induction ms with
  | nil => intro acc h; exact h
  | cons m ms ih => intro acc h; exact ih (step acc m) (hstep acc m h)

/-- The Capitec step preserves the reference invariant. -/
theorem capStep_refsOK (y : Nat) (fmt : CapFmt) (acc : List Transaction)
    (m : String × String × String) (h : refsOK acc) : refsOK (capStep y fmt acc m) := by
  unfold capStep
  split
  · exact h
  · split
    · exact h
    · exact refsOK_appendTx h

/-- The generic step preserves the reference invariant. -/
theorem genStep_refsOK (fmt : GenFmt) (acc : List Transaction)
    (m : String × String × String) (h : refsOK acc) : refsOK (genStep fmt acc m) := by
  simp only [genStep]
  split
  · exact h
  · split
    · exact h
    · split
      · exact h
      · exact refsOK_appendTx h

/-- The TymeBank loop preserves the reference invariant. -/
theorem tymeLoopF_refsOK : ∀ (fuel : Nat) (lines : List String) (i : Nat)
    (acc : List Transaction), refsOK acc → refsOK (tymeLoopF fuel lines i acc) := by
  intro fuel
  induction fuel with
  | zero => intro lines i acc h; exact h
  | succ f ih =>
    intro lines i acc h
    by_cases hlt : i < lines.length
    · simp only [tymeLoopF, if_pos hlt]
      refine ih lines _ _ ?_
      cases hc : (tymeCand lines i).2 with
      | none => exact h
      | some v =>
        obtain ⟨d, ds, a, t⟩ := v
        exact refsOK_appendTx h
    · simp only [tymeLoopF, if_neg hlt]
      exact h

/-- The reference invariant makes the reference strings pairwise
distinct: the decimal index after the last dash determines the
position. -/
theorem refsOK_nodup {acc : List Transaction} (h : refsOK acc) :
    (acc.map (fun t => t.reference)).Nodup := by
  rw [List.nodup_iff_injective_get]
  intro i j hij
  obtain ⟨iv, hi⟩ := i
  obtain ⟨jv, hj⟩ := j
  have hi2 : iv < acc.length := by simpa using hi
  have hj2 : jv < acc.length := by simpa using hj
  simp only [List.get_map] at hij
  have hri := h iv hi2
  have hrj := h jv hj2
  have hget : (acc.get ⟨iv, hi2⟩).reference = (acc.get ⟨jv, hj2⟩).reference := by
    simpa using hij
  have : natChars iv = natChars jv := by
    rw [← hri, ← hrj, hget]
  exact Fin.ext (natChars_inj this)

/-- C10: within one invocation of the TymeBank, Capitec or generic PDF
parser, the synthetic reference strings of the returned transactions are
pairwise distinct, because each reference embeds the length of the
accumulated list at the moment of appending, which strictly increases. -/
theorem references_pairwise_distinct (text : String) (y : Nat) :
    ((parseTymebank text).map (fun t => t.reference)).Nodup ∧
    ((parseCapitec text y).map (fun t => t.reference)).Nodup ∧
    ((parseGeneric text).map (fun t => t.reference)).Nodup := by
  refine ⟨refsOK_nodup ?_, refsOK_nodup ?_, refsOK_nodup ?_⟩
  · unfold parseTymebank tymeRun
    exact tymeLoopF_refsOK _ _ 0 [] refsOK_nil
  · simp only [parseCapitec]
    split
    · exact foldl_pres_refsOK _ (capStep_refsOK y CapFmt.ymdSlash) _ [] refsOK_nil
    · split
      · exact foldl_pres_refsOK _ (capStep_refsOK y CapFmt.dmySlash) _ [] refsOK_nil
      · exact foldl_pres_refsOK _ (capStep_refsOK y CapFmt.dMon) _ [] refsOK_nil
  · simp only [parseGeneric]
    split
    · exact foldl_pres_refsOK _ (genStep_refsOK GenFmt.pipe) _ [] refsOK_nil
    · split
      · exact foldl_pres_refsOK _ (genStep_refsOK GenFmt.dmySlash) _ [] refsOK_nil
      · split
        · exact foldl_pres_refsOK _ (genStep_refsOK GenFmt.ymdDash) _ [] refsOK_nil
        · exact foldl_pres_refsOK _ (genStep_refsOK GenFmt.dMonY) _ [] refsOK_nil
